import Mathlib

/-!
Shallow embedding of `src/environments/med_agent_bench/med_agent_bench.py`
(the MedAgentBench environment of the `verifiers` repository).

The turn-processing core consists of:
  * `MedAgentBenchEnv.is_completed`  — completion check / command classifier,
    mutating the conversation state (embedded as `is_completed`, returning the
    boolean together with the updated state);
  * `MedAgentBenchEnv.env_response`  — GET/POST action executor (embedded as
    `env_response`; the external collaborators `send_get_request` and
    `json.loads` are passed in as oracle parameters, and a result of `none`
    models an uncaught Python exception such as the `KeyError` on
    `get_res['error']`);
  * `eval` and `medagent_bench_reward_func` — the grading dispatcher (the
    external `refsol` module and the FHIR health check are oracle parameters).

Python strings are embedded as `String`/`List Char` (code points); Python's
`str.replace`, `str.split`, `str.strip` and slicing are translated by the
explicit list functions below with Python's exact semantics (left-to-right,
non-overlapping, one-pass replacement; split keeping empty segments).
-/

namespace MedAgentBench

/-- One chat message: a Python dict with `role` and `content` keys. -/
structure Message where
  role : String
  content : String
deriving DecidableEq, Repr

/-- The conversation `state` dict, restricted to the keys the core touches.
`none` models an absent key (`state.get` returning `None` /
`"final_answer" not in state`). -/
structure ConvState where
  status : Option String
  final_answer : Option String
deriving DecidableEq, Repr

/-- Result dict of `send_get_request`: the backend contract is that it holds
a `data` key on success or an `error` key on failure; `none` models an
absent key. -/
structure GetRes where
  data : Option String
  error : Option String
deriving DecidableEq, Repr

/-- Python `str.strip()` (restricted to ASCII whitespace): drop leading and
trailing whitespace characters. -/
def pyStrip (l : List Char) : List Char :=
  ((l.dropWhile Char.isWhitespace).reverse.dropWhile Char.isWhitespace).reverse

/-- Auxiliary recursion for `removeAll`, structural on a fuel argument so
that it reduces in the kernel; the fuel never runs out when it starts at
`s.length` because each step consumes at least one character of `s`. -/
def removeAllAux (pat : List Char) : Nat → List Char → List Char
  | _, [] => []
  | 0, s => s
  | Nat.succ n, c :: cs =>
    if pat ≠ [] ∧ pat.isPrefixOf (c :: cs) then
      removeAllAux pat n (List.drop pat.length (c :: cs))
    else
      c :: removeAllAux pat n cs

/-- Python `s.replace(pat, '')` for a non-empty `pat`: one pass, left to
right, removing each non-overlapping occurrence of `pat`. -/
def removeAll (pat : List Char) (s : List Char) : List Char :=
  removeAllAux pat s.length s

/-- Python `s.split(sep)` with an explicit one-character separator: keeps
empty segments, `''.split(sep) == ['']`. -/
def pySplit (l : List Char) (sep : Char) : List (List Char) :=
  match l with
  | [] => [[]]
  | c :: cs =>
    let rest := pySplit cs sep
    if c = sep then [] :: rest
    else
      match rest with
      | [] => [[c]]
      | r :: rs => (c :: r) :: rs

/-- Python `sep.join(segments)` for a one-character separator. -/
def joinSep (sep : Char) : List (List Char) → List Char
  | [] => []
  | [x] => x
  | x :: xs => x ++ sep :: joinSep sep xs

/-- The content preprocessing shared by `is_completed` and `env_response`
(lines 213–215 and 254–256 of the source):
`content.strip().replace('```tool_code', '').replace('```', '').strip()`. -/
def stripContent (s : String) : List Char :=
  pyStrip (removeAll "```".toList (removeAll "```tool_code".toList (pyStrip s.toList)))

/-- Embedding of `MedAgentBenchEnv.is_completed`.  Returns the boolean the
Python coroutine returns together with the (possibly mutated) state. -/
def is_completed (messages : List Message) (state : ConvState) : Bool × ConvState :=
  if messages.isEmpty then (false, state)
  else if state.status = some "completed" ∨ state.status = some "invalid_action" then
    (true, state)
  else
    match messages.getLast? with
    | none => (false, state)
    | some last_msg =>
      if last_msg.role = "assistant" then
        let content := stripContent last_msg.content
        if "FINISH(".toList.isPrefixOf content then
          (true, { state with
                   final_answer := some (String.mk ((content.drop "FINISH(".length).dropLast)),
                   status := some "completed" })
        else if ¬ ("GET".toList.isPrefixOf content ∨ "POST".toList.isPrefixOf content) then
          (true, { state with status := some "invalid_action" })
        else
          (false, state)
      else
        (false, state)

/-- The URL `env_response` hands to `send_get_request`:
`content[3:].strip() + "&_format=json"`. -/
def getUrl (content : List Char) : String :=
  String.mk (pyStrip (content.drop 3)) ++ "&_format=json"

/-- The observation text for a successful GET
(`f"Here is the response from the GET request:\n{data}. Please call FINISH …"`). -/
def getSuccessMsg (d : String) : String :=
  "Here is the response from the GET request:\n" ++ d ++
    ". Please call FINISH if you have got answers for all the questions and finished all the requested tasks"

/-- The observation text for a failed GET
(`f"Error in sending the GET request: {error}"`). -/
def getErrorMsg (e : String) : String :=
  "Error in sending the GET request: " ++ e

/-- The observation text acknowledging a well-formed POST. -/
def postAcceptMsg : String :=
  "POST request accepted and executed successfully. Please call FINISH if you have got answers for all the questions and finished all the requested tasks"

/-- The observation text for a POST whose body fails to parse as JSON. -/
def postInvalidMsg : String :=
  "Invalid POST request format"

/-- Embedding of `MedAgentBenchEnv.env_response`.  `send_get` is the external
`send_get_request` collaborator, `json_ok` tells whether `json.loads`
succeeds on a body.  A `none` result models an uncaught Python exception
(the `KeyError` when the GET result has neither `data` nor `error`). -/
def env_response (send_get : String → GetRes) (json_ok : List Char → Bool)
    (messages : List Message) (state : ConvState) :
    Option (List Message × ConvState) :=
  if messages.isEmpty then some ([], state)
  else
    match messages.getLast? with
    | none => some ([], state)
    | some last_msg =>
      if last_msg.role ≠ "assistant" then some ([], state)
      else
        let content := stripContent last_msg.content
        if "GET".toList.isPrefixOf content then
          let get_res := send_get (getUrl content)
          match get_res.data with
          | some d => some ([⟨"user", getSuccessMsg d⟩], state)
          | none =>
            match get_res.error with
            | some e => some ([⟨"user", getErrorMsg e⟩], state)
            | none => none
        else if "POST".toList.isPrefixOf content then
          let body := joinSep '\n' ((pySplit content '\n').drop 1)
          if json_ok body then
            some ([⟨"user", postAcceptMsg⟩], state)
          else
            some ([⟨"user", postInvalidMsg⟩], state)
        else
          some ([], state)

/-- Outcome of one call of a `refsol` grading routine, as observed by `eval`:
it raises, returns exactly `True`, or returns any other value. -/
inductive GraderOutcome where
  | raises
  | returnsTrue
  | returnsOther
deriving DecidableEq, Repr

/-- The value the Python function `eval` produces: it can itself raise
(`getattr` fails when no routine is registered for the task id), return
`True`, fall off the end returning `None`, or return `False`. -/
inductive EvalResult where
  | raisesAttr
  | retTrue
  | retNone
  | retFalse
deriving DecidableEq, Repr

/-- The task identifier `eval` dispatches on:
`case_data['id'].split('_')[0]`. -/
def taskId (case_id : String) : String :=
  String.mk ((pySplit case_id.toList '_').headD [])

/-- Embedding of the module-level `eval` function.  `refsol` maps a task
identifier to the outcome of its grading routine, `none` when the module has
no attribute of that name. -/
def eval (refsol : String → Option GraderOutcome) (case_id : String) : EvalResult :=
  match refsol (taskId case_id) with
  | none => EvalResult.raisesAttr
  | some GraderOutcome.raises => EvalResult.retFalse
  | some GraderOutcome.returnsTrue => EvalResult.retTrue
  | some GraderOutcome.returnsOther => EvalResult.retNone

/-- Embedding of `medagent_bench_reward_func` (the closure returned by
`create_medagent_bench_reward_func`).  `verify_ok` is the result of the
external `verify_fhir_server` health check.  The `try/except` around the
grading call catches every exception — including the `AttributeError`
escaping `eval` — and yields reward `0`. -/
def medagent_bench_reward_func (verify_ok : Bool)
    (refsol : String → Option GraderOutcome) (case_id : String)
    (state : ConvState) : Nat :=
  if state.status ≠ some "completed" then 0
  else if state.final_answer = none then 0
  else if ¬ verify_ok then 0
  else
    match eval refsol case_id with
    | EvalResult.raisesAttr => 0
    | EvalResult.retTrue => 1
    | EvalResult.retNone => 0
    | EvalResult.retFalse => 0

/-- A state is terminal when its status is `completed` or `invalid_action`
(the two values `is_completed` short-circuits on). -/
@[reducible] def isTerminal (s : ConvState) : Prop :=
  s.status = some "completed" ∨ s.status = some "invalid_action"

/-- The completion reminder every success observation ends with. -/
def reminder : String :=
  "Please call FINISH if you have got answers for all the questions and finished all the requested tasks"

/-- Test double: a backend whose GET always succeeds with payload `d`. -/
def backendData (d : String) : String → GetRes := fun _ => ⟨some d, none⟩

/-- Test double: a backend whose GET always reports error `e`. -/
def backendError (e : String) : String → GetRes := fun _ => ⟨none, some e⟩

/-- Test double: a backend returning a dict with neither `data` nor `error`. -/
def backendEmpty : String → GetRes := fun _ => ⟨none, none⟩

/-- Test double: `json.loads` succeeding on every body. -/
def jsonAlways : List Char → Bool := fun _ => true

/-- Test double: `json.loads` failing on every body. -/
def jsonNever : List Char → Bool := fun _ => false

/-- Test double: a `refsol` module with no grading routines at all. -/
def refsolEmpty : String → Option GraderOutcome := fun _ => none

/-- A list with a last element is not empty. -/
theorem isEmpty_eq_false_of_getLast? {α : Type} {l : List α} {a : α}
    (h : l.getLast? = some a) : l.isEmpty = false := by
  cases l with
  | nil => simp at h
  | cons x xs => rfl

/-- A content that starts with `POST` does not start with `GET`
(the classifier's branches are mutually exclusive). -/
theorem isPrefixOf_GET_eq_false_of_POST {l : List Char}
    (hp : "POST".toList.isPrefixOf l = true) :
    "GET".toList.isPrefixOf l = false := by
  rw [List.isPrefixOf_iff_prefix] at hp
  rw [Bool.eq_false_iff, Ne, List.isPrefixOf_iff_prefix]
  obtain ⟨t, ht⟩ := hp
  intro hg
  obtain ⟨u, hu⟩ := hg
  rw [← ht] at hu
  have hG : "GET".toList = ['G', 'E', 'T'] := by decide
  have hP : "POST".toList = ['P', 'O', 'S', 'T'] := by decide
  rw [hG, hP] at hu
  simp only [List.cons_append, List.cons.injEq] at hu
  exact absurd hu.1 (by decide)

/-- Claim C10: if the message history is empty, or the latest message's role
is not `assistant`, `env_response` returns an empty list of observation
messages and the conversation state entirely unchanged. -/
theorem env_response_frame (send_get : String → GetRes) (json_ok : List Char → Bool)
    (msgs : List Message) (s : ConvState)
    (h : msgs = [] ∨ ∀ m, msgs.getLast? = some m → m.role ≠ "assistant") :
    env_response send_get json_ok msgs s = some ([], s) := by
  rcases h with rfl | h
  · rfl
  · unfold env_response
    cases hgl : msgs.getLast? with
    | none => simp [hgl]
    | some m =>
      have hrole := h m hgl
      simp [isEmpty_eq_false_of_getLast? hgl, hgl, hrole]

/-- Witness for C10: on an empty history nothing is produced and the state
is returned as-is. -/
theorem env_response_frame_witness :
    env_response backendEmpty jsonAlways [] ⟨none, none⟩ = some ([], ⟨none, none⟩) :=
  env_response_frame backendEmpty jsonAlways [] ⟨none, none⟩ (Or.inl rfl)

/-- Claim C8: on a GET action whose backend response dictionary contains
neither a `data` key nor an `error` key, `env_response`'s error branch reads
`get_res['error']` unguarded and raises a `KeyError` (modelled as `none`)
instead of returning an observation. -/
theorem get_missing_keys_raises (send_get : String → GetRes) (json_ok : List Char → Bool)
    (m : Message) (msgs : List Message) (s : ConvState)
    (hm : msgs.getLast? = some m) (hrole : m.role = "assistant")
    (hg : "GET".toList.isPrefixOf (stripContent m.content) = true)
    (hd : (send_get (getUrl (stripContent m.content))).data = none)
    (he : (send_get (getUrl (stripContent m.content))).error = none) :
    env_response send_get json_ok msgs s = none := by
  simp at hg
  unfold env_response
  simp [isEmpty_eq_false_of_getLast? hm, hm, hrole, hg, hd, he]

/-- Witness for C8: a backend dict with neither key makes the GET handler
raise rather than answer. -/
theorem get_missing_keys_raises_witness :
    env_response backendEmpty jsonAlways [⟨"assistant", "GET patients?id=1"⟩] ⟨none, none⟩
      = none :=
  get_missing_keys_raises backendEmpty jsonAlways ⟨"assistant", "GET patients?id=1"⟩
    [⟨"assistant", "GET patients?id=1"⟩] ⟨none, none⟩ rfl rfl (by decide) rfl rfl

/-- Claim C4: a GET utterance is executed against the agent-supplied URL
fragment with the `&_format=json` query parameter appended; when the backend
result has a `data` field the observation forwards that payload verbatim and
the state (hence the `active` status) is unchanged; when it reports an
`error` the observation describes the error and the state is likewise
unchanged, so the agent may retry next turn. -/
theorem get_request_observation (send_get : String → GetRes) (json_ok : List Char → Bool)
    (m : Message) (msgs : List Message) (s : ConvState)
    (hm : msgs.getLast? = some m) (hrole : m.role = "assistant")
    (hg : "GET".toList.isPrefixOf (stripContent m.content) = true) :
    (∀ d, (send_get (getUrl (stripContent m.content))).data = some d →
      env_response send_get json_ok msgs s = some ([⟨"user", getSuccessMsg d⟩], s)) ∧
    (∀ e, (send_get (getUrl (stripContent m.content))).data = none →
      (send_get (getUrl (stripContent m.content))).error = some e →
      env_response send_get json_ok msgs s = some ([⟨"user", getErrorMsg e⟩], s)) := by
  simp at hg
  constructor
  · intro d hd
    unfold env_response
    simp [isEmpty_eq_false_of_getLast? hm, hm, hrole, hg, hd]
  · intro e hd he
    unfold env_response
    simp [isEmpty_eq_false_of_getLast? hm, hm, hrole, hg, hd, he]

/-- Witness for C4: with a backend returning `{"data": "X"}`, the utterance
`GET patients?id=1` yields the observation containing `X` and the state is
unchanged. -/
theorem get_request_observation_witness :
    env_response (backendData "X") jsonAlways [⟨"assistant", "GET patients?id=1"⟩] ⟨none, none⟩
      = some ([⟨"user", getSuccessMsg "X"⟩], ⟨none, none⟩) :=
  (get_request_observation (backendData "X") jsonAlways ⟨"assistant", "GET patients?id=1"⟩
    [⟨"assistant", "GET patients?id=1"⟩] ⟨none, none⟩ rfl rfl (by decide)).1 "X" rfl

/-- Claim C5: a POST utterance is only syntactically validated: if the text
after the first line parses as JSON the executor returns the fixed
acceptance observation, otherwise the fixed invalid-format observation; in
both cases the state is unchanged, and the result does not depend on the
backend at all (no network I/O is performed). -/
theorem post_request_simulated (send_get send_get2 : String → GetRes) (json_ok : List Char → Bool)
    (m : Message) (msgs : List Message) (s : ConvState)
    (hm : msgs.getLast? = some m) (hrole : m.role = "assistant")
    (hp : "POST".toList.isPrefixOf (stripContent m.content) = true) :
    env_response send_get json_ok msgs s =
      (if json_ok (joinSep '\n' ((pySplit (stripContent m.content) '\n').drop 1)) then
        some ([⟨"user", postAcceptMsg⟩], s)
      else
        some ([⟨"user", postInvalidMsg⟩], s)) ∧
    env_response send_get json_ok msgs s = env_response send_get2 json_ok msgs s := by
  have hg := isPrefixOf_GET_eq_false_of_POST hp
  simp at hg hp
  constructor
  · unfold env_response
    simp [isEmpty_eq_false_of_getLast? hm, hm, hrole, hg, hp]
  · unfold env_response
    simp [isEmpty_eq_false_of_getLast? hm, hm, hrole, hg, hp]

/-- Witness for C5: a well-formed `POST patients\n{"a":1}` is acknowledged
without touching the backend (two disagreeing backends give the same
result), and the state is unchanged. -/
theorem post_request_simulated_witness :
    env_response backendEmpty jsonAlways [⟨"assistant", "POST patients\n\x7b\"a\":1\x7d"⟩]
        ⟨none, none⟩
      = some ([⟨"user", postAcceptMsg⟩], ⟨none, none⟩) ∧
    env_response backendEmpty jsonAlways [⟨"assistant", "POST patients\n\x7b\"a\":1\x7d"⟩]
        ⟨none, none⟩
      = env_response (backendData "X") jsonAlways
          [⟨"assistant", "POST patients\n\x7b\"a\":1\x7d"⟩] ⟨none, none⟩ :=
  (post_request_simulated backendEmpty (backendData "X") jsonAlways
    ⟨"assistant", "POST patients\n\x7b\"a\":1\x7d"⟩
    [⟨"assistant", "POST patients\n\x7b\"a\":1\x7d"⟩] ⟨none, none⟩ rfl rfl (by decide))

/-- Claim C6: whenever the grading routine is missing for the derived task
identifier (the case identifier's substring before its first underscore),
raises, or returns any value other than exactly `True`, the reward is `0`;
the surrounding `try/except` keeps any of these conditions from escaping
the reward function (the embedding is total). -/
theorem grading_failure_reward_zero (verify_ok : Bool)
    (refsol : String → Option GraderOutcome) (case_id : String) (state : ConvState)
    (h : refsol (taskId case_id) = none ∨
      refsol (taskId case_id) = some GraderOutcome.raises ∨
      refsol (taskId case_id) = some GraderOutcome.returnsOther) :
    medagent_bench_reward_func verify_ok refsol case_id state = 0 := by
  unfold medagent_bench_reward_func eval
  rcases h with h | h | h <;> simp [h]

/-- Witness for C6: with no grading routine registered at all, a completed
conversation with a stored answer still grades to `0`. -/
theorem grading_failure_reward_zero_witness :
    medagent_bench_reward_func true refsolEmpty "task3_7" ⟨some "completed", some "[1]"⟩ = 0 :=
  grading_failure_reward_zero true refsolEmpty "task3_7" ⟨some "completed", some "[1]"⟩
    (Or.inl rfl)

/-- Claim C3: an assistant utterance that (after fence stripping and
trimming) starts with none of `FINISH(`, `GET`, `POST`, processed from a
non-terminal state, sets the status to `invalid_action` with the completion
check returning `true` (the conversation ends), and `env_response` produces
no observation message for it. -/
theorem invalid_action_terminates (m : Message) (msgs : List Message) (s : ConvState)
    (hm : msgs.getLast? = some m) (hrole : m.role = "assistant") (hterm : ¬ isTerminal s)
    (hf : "FINISH(".toList.isPrefixOf (stripContent m.content) = false)
    (hg : "GET".toList.isPrefixOf (stripContent m.content) = false)
    (hp : "POST".toList.isPrefixOf (stripContent m.content) = false) :
    is_completed msgs s = (true, { s with status := some "invalid_action" }) ∧
    ∀ (send_get : String → GetRes) (json_ok : List Char → Bool),
      env_response send_get json_ok msgs s = some ([], s) := by
  simp at hf hg hp
  have hterm' : ¬ (s.status = some "completed" ∨ s.status = some "invalid_action") := hterm
  constructor
  · unfold is_completed
    simp [isEmpty_eq_false_of_getLast? hm, hm, hrole, hterm', hf, hg, hp]
  · intro send_get json_ok
    unfold env_response
    simp [isEmpty_eq_false_of_getLast? hm, hm, hrole, hg, hp]

/-- Witness for C3: the utterance `HELLO` from `active` turns the status
terminal with no observation emitted. -/
theorem invalid_action_terminates_witness :
    is_completed [⟨"assistant", "HELLO"⟩] ⟨none, none⟩
      = (true, ⟨some "invalid_action", none⟩) ∧
    ∀ (send_get : String → GetRes) (json_ok : List Char → Bool),
      env_response send_get json_ok [⟨"assistant", "HELLO"⟩] ⟨none, none⟩
        = some ([], ⟨none, none⟩) :=
  invalid_action_terminates ⟨"assistant", "HELLO"⟩ [⟨"assistant", "HELLO"⟩] ⟨none, none⟩
    rfl rfl (by decide) (by decide) (by decide) (by decide)

/-- Claim C1: the status only ever steps `active → active`,
`active → completed` or `active → invalid_action`; both non-`active`
statuses are absorbing (on a nonempty history the check returns `true` and
leaves the state untouched, so no further assistant message is processed);
and the final answer is written exactly on the step that makes the status
`completed`, staying unchanged on every other step. -/
theorem status_transition_invariant (messages : List Message) (s s' : ConvState) (b : Bool)
    (h : is_completed messages s = (b, s')) :
    (isTerminal s → messages ≠ [] → b = true ∧ s' = s) ∧
    ((s'.status = s.status ∧ s'.final_answer = s.final_answer) ∨
      (¬ isTerminal s ∧ s'.status = some "completed" ∧ s'.final_answer.isSome = true ∧
        b = true) ∨
      (¬ isTerminal s ∧ s'.status = some "invalid_action" ∧
        s'.final_answer = s.final_answer ∧ b = true)) := by
  cases messages with
  | nil =>
    simp only [is_completed, List.isEmpty_nil, if_true] at h
    rw [Prod.mk.injEq] at h
    obtain ⟨hb, hs⟩ := h
    subst hb
    subst hs
    exact ⟨fun _ hne => absurd rfl hne, Or.inl ⟨rfl, rfl⟩⟩
  | cons x xs =>
    have hne : (x :: xs).isEmpty = false := rfl
    unfold is_completed at h
    rw [hne] at h
    simp only [Bool.false_eq_true, if_false] at h
    by_cases ht : s.status = some "completed" ∨ s.status = some "invalid_action"
    · rw [if_pos ht] at h
      rw [Prod.mk.injEq] at h
      obtain ⟨hb, hs⟩ := h
      subst hb
      subst hs
      exact ⟨fun _ _ => ⟨rfl, rfl⟩, Or.inl ⟨rfl, rfl⟩⟩
    · rw [if_neg ht] at h
      cases hgl : (x :: xs).getLast? with
      | none =>
        simp only [hgl] at h
        rw [Prod.mk.injEq] at h
        obtain ⟨hb, hs⟩ := h
        subst hb
        subst hs
        exact ⟨fun hT _ => absurd hT ht, Or.inl ⟨rfl, rfl⟩⟩
      | some last =>
        simp only [hgl] at h
        by_cases hr : last.role = "assistant"
        · rw [if_pos hr] at h
          by_cases hF : "FINISH(".toList.isPrefixOf (stripContent last.content) = true
          · rw [if_pos hF] at h
            rw [Prod.mk.injEq] at h
            obtain ⟨hb, hs⟩ := h
            subst hb
            subst hs
            exact ⟨fun hT _ => absurd hT ht, Or.inr (Or.inl ⟨ht, rfl, rfl, rfl⟩)⟩
          · rw [if_neg hF] at h
            by_cases hgp : ("GET".toList.isPrefixOf (stripContent last.content) = true ∨
                "POST".toList.isPrefixOf (stripContent last.content) = true)
            · rw [if_neg (not_not_intro hgp)] at h
              rw [Prod.mk.injEq] at h
              obtain ⟨hb, hs⟩ := h
              subst hb
              subst hs
              exact ⟨fun hT _ => absurd hT ht, Or.inl ⟨rfl, rfl⟩⟩
            · rw [if_pos hgp] at h
              rw [Prod.mk.injEq] at h
              obtain ⟨hb, hs⟩ := h
              subst hb
              subst hs
              exact ⟨fun hT _ => absurd hT ht, Or.inr (Or.inr ⟨ht, rfl, rfl, rfl⟩)⟩
        · rw [if_neg hr] at h
          rw [Prod.mk.injEq] at h
          obtain ⟨hb, hs⟩ := h
          subst hb
          subst hs
          exact ⟨fun hT _ => absurd hT ht, Or.inl ⟨rfl, rfl⟩⟩

/-- Witness for C1: a terminal state absorbs — the completion check returns
`true` and the state comes back identical. -/
theorem status_transition_invariant_witness :
    (is_completed [⟨"assistant", "HELLO"⟩] ⟨some "completed", some "x"⟩).1 = true ∧
    (is_completed [⟨"assistant", "HELLO"⟩] ⟨some "completed", some "x"⟩).2
      = ⟨some "completed", some "x"⟩ :=
  (status_transition_invariant [⟨"assistant", "HELLO"⟩] ⟨some "completed", some "x"⟩
      (is_completed [⟨"assistant", "HELLO"⟩] ⟨some "completed", some "x"⟩).2
      (is_completed [⟨"assistant", "HELLO"⟩] ⟨some "completed", some "x"⟩).1 rfl).1
    (Or.inl rfl) (by decide)

/-- Claim C2 counterexample: processing `FINISH([1, 2])` from `active`
stores the final-answer text `"[1, 2]"` — the brackets are kept — and not
`"1, 2"` as the claim asserts. -/
theorem finish_answer_keeps_brackets :
    (is_completed [⟨"assistant", "FINISH([1, 2])"⟩] ⟨none, none⟩).2.final_answer
      ≠ some "1, 2" := by decide

/-- Claim C2 (amended): processing the utterance exactly `FINISH([1, 2])`
while status is active sets status to `completed` and stores the
final-answer text `"[1, 2]"`; per the classifier rule, the captured answer
is everything between the opening parenthesis and the final character of
the content (dropping the assumed trailing `)`), with no validation that it
is a JSON array. -/
theorem finish_stores_answer :
    (is_completed [⟨"assistant", "FINISH([1, 2])"⟩] ⟨none, none⟩
      = (true, ⟨some "completed", some "[1, 2]"⟩)) ∧
    (∀ (m : Message) (s : ConvState), m.role = "assistant" → ¬ isTerminal s →
      "FINISH(".toList.isPrefixOf (stripContent m.content) = true →
      is_completed [m] s
        = (true, { s with
                   status := some "completed",
                   final_answer := some (String.mk
                     (((stripContent m.content).drop "FINISH(".length).dropLast)) })) := by
  constructor
  · decide
  · intro m s hrole hterm hF
    have hterm' : ¬ (s.status = some "completed" ∨ s.status = some "invalid_action") := hterm
    simp at hF
    unfold is_completed
    simp [hrole, hterm', hF]

/-- Witness for C2: another concrete `FINISH(...)` utterance run through the
general rule of the theorem. -/
theorem finish_stores_answer_witness :
    is_completed [⟨"assistant", "FINISH([3])"⟩] ⟨none, none⟩
      = (true, ⟨some "completed", some "[3]"⟩) := by
  have h := finish_stores_answer.2 ⟨"assistant", "FINISH([3])"⟩ ⟨none, none⟩ rfl
    (by decide) (by decide)
  exact h

/-- The GET success observation ends with the FINISH reminder, whatever the
forwarded payload is. -/
theorem reminder_suffix_getSuccessMsg (d : String) :
    reminder.toList.isSuffixOf (getSuccessMsg d).toList = true := by
  rw [List.isSuffixOf_iff_suffix]
  have h1 : (getSuccessMsg d).toList
      = ("Here is the response from the GET request:\n" ++ d).toList ++
        (". Please call FINISH if you have got answers for all the questions and finished all the requested tasks").toList :=
    String.data_append _ _
  rw [h1]
  exact List.IsSuffix.trans
    (by decide :
      reminder.toList <:+
        (". Please call FINISH if you have got answers for all the questions and finished all the requested tasks").toList)
    (List.suffix_append _ _)

/-- Claim C7 counterexample: the observation produced on GET failure does
not end with the FINISH reminder (and the turn is not terminal — the state
stays active), contradicting the claim that every non-terminal observation
carries the reminder. -/
theorem observation_reminder_counterexample :
    env_response (backendError "E") jsonAlways [⟨"assistant", "GET patients?id=1"⟩]
        ⟨none, none⟩
      = some ([⟨"user", getErrorMsg "E"⟩], ⟨none, none⟩) ∧
    reminder.toList.isSuffixOf (getErrorMsg "E").toList = false := by decide

/-- Claim C7 (amended): every observation message emitted by `env_response`
either ends with the reminder to call `FINISH` — the GET success and POST
acceptance observations do — or is one of the two failure observations,
which do not append the reminder: the bare GET error description, or the
fixed invalid-POST-format text (which provably does not contain it). -/
theorem observation_reminder_policy (send_get : String → GetRes) (json_ok : List Char → Bool)
    (msgs : List Message) (s : ConvState) (obs : List Message) (s' : ConvState)
    (h : env_response send_get json_ok msgs s = some (obs, s'))
    (o : Message) (ho : o ∈ obs) :
    reminder.toList.isSuffixOf o.content.toList = true ∨
    (∃ e, o.content = getErrorMsg e) ∨
    (o.content = postInvalidMsg ∧
      reminder.toList.isSuffixOf postInvalidMsg.toList = false) := by
  unfold env_response at h
  by_cases hE : msgs.isEmpty = true
  · rw [if_pos hE] at h
    simp only [Option.some.injEq, Prod.mk.injEq] at h
    obtain ⟨h1, _⟩ := h
    subst h1
    exact absurd ho (List.not_mem_nil o)
  · rw [if_neg hE] at h
    cases hgl : msgs.getLast? with
    | none =>
      simp only [hgl, Option.some.injEq, Prod.mk.injEq] at h
      obtain ⟨h1, _⟩ := h
      subst h1
      exact absurd ho (List.not_mem_nil o)
    | some last =>
      simp only [hgl] at h
      by_cases hr : last.role ≠ "assistant"
      · rw [if_pos hr] at h
        simp only [Option.some.injEq, Prod.mk.injEq] at h
        obtain ⟨h1, _⟩ := h
        subst h1
        exact absurd ho (List.not_mem_nil o)
      · rw [if_neg hr] at h
        by_cases hG : "GET".toList.isPrefixOf (stripContent last.content) = true
        · rw [if_pos hG] at h
          cases hd : (send_get (getUrl (stripContent last.content))).data with
          | some d =>
            simp only [hd, Option.some.injEq, Prod.mk.injEq] at h
            obtain ⟨h1, _⟩ := h
            subst h1
            rcases List.mem_singleton.mp ho with rfl
            exact Or.inl (reminder_suffix_getSuccessMsg d)
          | none =>
            simp only [hd] at h
            cases he : (send_get (getUrl (stripContent last.content))).error with
            | some e =>
              simp only [he, Option.some.injEq, Prod.mk.injEq] at h
              obtain ⟨h1, _⟩ := h
              subst h1
              rcases List.mem_singleton.mp ho with rfl
              exact Or.inr (Or.inl ⟨e, rfl⟩)
            | none =>
              simp only [he] at h
              exact Option.noConfusion h
        · rw [if_neg hG] at h
          by_cases hP : "POST".toList.isPrefixOf (stripContent last.content) = true
          · rw [if_pos hP] at h
            by_cases hj : json_ok (joinSep '\n'
                ((pySplit (stripContent last.content) '\n').drop 1)) = true
            · rw [if_pos hj] at h
              simp only [Option.some.injEq, Prod.mk.injEq] at h
              obtain ⟨h1, _⟩ := h
              subst h1
              rcases List.mem_singleton.mp ho with rfl
              exact Or.inl (by decide)
            · rw [if_neg hj] at h
              simp only [Option.some.injEq, Prod.mk.injEq] at h
              obtain ⟨h1, _⟩ := h
              subst h1
              rcases List.mem_singleton.mp ho with rfl
              exact Or.inr (Or.inr ⟨rfl, by decide⟩)
          · rw [if_neg hP] at h
            simp only [Option.some.injEq, Prod.mk.injEq] at h
            obtain ⟨h1, _⟩ := h
            subst h1
            exact absurd ho (List.not_mem_nil o)

/-- Witness for C7: the GET success observation for payload `X` falls into
the reminder-carrying case. -/
theorem observation_reminder_policy_witness :
    reminder.toList.isSuffixOf (getSuccessMsg "X").toList = true ∨
    (∃ e, getSuccessMsg "X" = getErrorMsg e) ∨
    (getSuccessMsg "X" = postInvalidMsg ∧
      reminder.toList.isSuffixOf postInvalidMsg.toList = false) :=
  observation_reminder_policy (backendData "X") jsonAlways
    [⟨"assistant", "GET patients?id=1"⟩] ⟨none, none⟩
    [⟨"user", getSuccessMsg "X"⟩] ⟨none, none⟩ rfl
    ⟨"user", getSuccessMsg "X"⟩ (List.mem_singleton.mpr rfl)

/-- Claim C9: both `is_completed` and `env_response` classify and act on the
globally stripped text — two contents with the same `stripContent` image
are processed identically — and the stripping removes every occurrence of
the substrings anywhere in the text (including mid-token, as the two
concrete equations show), followed by whitespace trimming. -/
theorem fence_stripping_global (m₁ m₂ : Message) (s : ConvState)
    (hrole : m₁.role = m₂.role)
    (hc : stripContent m₁.content = stripContent m₂.content) :
    (is_completed [m₁] s = is_completed [m₂] s ∧
      ∀ (send_get : String → GetRes) (json_ok : List Char → Bool),
        env_response send_get json_ok [m₁] s = env_response send_get json_ok [m₂] s) ∧
    stripContent "```tool_code\nGET patients?id=1```" = "GET patients?id=1".toList ∧
    stripContent "GE```T patients?id=1" = "GET patients?id=1".toList := by
  refine ⟨⟨?_, ?_⟩, by decide, by decide⟩
  · unfold is_completed
    simp only [List.getLast?_singleton, List.isEmpty_cons, hrole, hc]
  · intro send_get json_ok
    unfold env_response
    simp only [List.getLast?_singleton, List.isEmpty_cons, hrole, hc]

/-- Witness for C9: a fenced `GET` utterance is processed exactly like the
unfenced one. -/
theorem fence_stripping_global_witness :
    (is_completed [⟨"assistant", "```GET patients?id=1```"⟩] ⟨none, none⟩
      = is_completed [⟨"assistant", "GET patients?id=1"⟩] ⟨none, none⟩ ∧
      ∀ (send_get : String → GetRes) (json_ok : List Char → Bool),
        env_response send_get json_ok [⟨"assistant", "```GET patients?id=1```"⟩] ⟨none, none⟩
          = env_response send_get json_ok [⟨"assistant", "GET patients?id=1"⟩]
              ⟨none, none⟩) ∧
    stripContent "```tool_code\nGET patients?id=1```" = "GET patients?id=1".toList ∧
    stripContent "GE```T patients?id=1" = "GET patients?id=1".toList :=
  fence_stripping_global ⟨"assistant", "```GET patients?id=1```"⟩
    ⟨"assistant", "GET patients?id=1"⟩ ⟨none, none⟩ rfl (by decide)

end MedAgentBench
